import Mathlib

/-!
Verification of the RazorMonitor DQM plugin
(`DQMOffline/Trigger/plugins/RazorMonitor.cc`).

The plugin is shallowly embedded: four-vectors and the MET three-vector are
real-valued records, the per-event callback `analyze` is a pure function from
an event record to the list of histogram fills and log messages it emits
together with the control-flow exit point it takes, and the per-run
`bookHistograms` callback is a pure function from the configuration to the
list of booking actions it performs.  Doubles are modelled by real numbers;
the one place where IEEE-754 special values matter (the unguarded division in
`CalcR`) is additionally refined by an explicit extended-value division model.
-/

open Classical

/-- A four-momentum vector (`math::XYZTLorentzVector`): px, py, pz, E. -/
structure LV where
  px : ℝ
  py : ℝ
  pz : ℝ
  e : ℝ

namespace LV

/-- `Pt()`: transverse momentum, `sqrt(px^2+py^2)`. -/
noncomputable def Pt (v : LV) : ℝ := Real.sqrt (v.px ^ 2 + v.py ^ 2)

/-- `P()`: momentum magnitude, `sqrt(px^2+py^2+pz^2)`. -/
noncomputable def P (v : LV) : ℝ := Real.sqrt (v.px ^ 2 + v.py ^ 2 + v.pz ^ 2)

/-- `Phi()`: azimuthal angle `atan2(py, px)`, embedded as the complex argument
of `px + i·py`, which lies in `(-π, π]`. -/
noncomputable def Phi (v : LV) : ℝ := Complex.arg ⟨v.px, v.py⟩

theorem Pt_nonneg (v : LV) : 0 ≤ v.Pt := Real.sqrt_nonneg _

end LV

/-- The all-zero four-vector, used as the (unreachable) default for list
access where the source uses `hemispheres->at(i)` under a size guard. -/
def lvZero : LV := ⟨0, 0, 0, 0⟩

/-- A three-vector (`math::XYZVector`), used for the MET momentum. -/
structure V3 where
  x : ℝ
  y : ℝ
  z : ℝ

namespace V3

/-- `R()`: magnitude of the three-vector. -/
noncomputable def R (v : V3) : ℝ := Real.sqrt (v.x ^ 2 + v.y ^ 2 + v.z ^ 2)

/-- Dot product of two three-vectors. -/
def dot (a b : V3) : ℝ := a.x * b.x + a.y * b.y + a.z * b.z

/-- Componentwise sum. -/
def add (a b : V3) : V3 := ⟨a.x + b.x, a.y + b.y, a.z + b.z⟩

end V3

/-- `Vect()`: the spatial three-vector of a four-vector. -/
def LV.Vect (v : LV) : V3 := ⟨v.px, v.py, v.pz⟩

/-- `RazorMonitor::CalcMR` (RazorMonitor.cc, borrowed from HLTRFilter.cc):
if the first (leading) argument has `Pt() <= 0.1` the sentinel `-1` is
returned; otherwise `gamma * MRstar` is computed from the two hemisphere
four-vectors.  `jaT`/`jbT` are the transverse projections, so
`jaT.Dot(jaT) = px^2 + py^2` and `(jaT+jbT).Mag2` is the squared magnitude of
the transverse sum. -/
noncomputable def CalcMR (ja jb : LV) : ℝ :=
  if ja.Pt ≤ 0.1 then -1
  else
    let A := ja.P
    let B := jb.P
    let az := ja.pz
    let bz := jb.pz
    let jaTsq := ja.px ^ 2 + ja.py ^ 2
    let jbTsq := jb.px ^ 2 + jb.py ^ 2
    let sumTsq := (ja.px + jb.px) ^ 2 + (ja.py + jb.py) ^ 2
    let ATBT := sumTsq
    let MR := Real.sqrt ((A + B) * (A + B) - (az + bz) * (az + bz) -
      (jbTsq - jaTsq) * (jbTsq - jaTsq) / sumTsq)
    let mybeta := (jbTsq - jaTsq) /
      Real.sqrt (ATBT * ((A + B) * (A + B) - (az + bz) * (az + bz)))
    let mygamma := 1 / Real.sqrt (1 - mybeta * mybeta)
    MR * mygamma

/-- The quantity `MTR` computed inside `RazorMonitor::CalcR`:
`sqrt(0.5*(met.R()*(ja.Pt()+jb.Pt()) - met.Dot(ja.Vect()+jb.Vect())))`. -/
noncomputable def CalcMTR (ja jb : LV) (met : V3) : ℝ :=
  Real.sqrt (0.5 * (met.R * (ja.Pt + jb.Pt) - met.dot (ja.Vect.add jb.Vect)))

/-- `RazorMonitor::CalcR`: `MTR / MR`, with real division (the real-number
abstraction of the unguarded double division in the source). -/
noncomputable def CalcR (MR : ℝ) (ja jb : LV) (met : V3) : ℝ :=
  CalcMTR ja jb met / MR

/-- An IEEE-754 double at the granularity needed here: a finite real value or
one of the special values produced by division. -/
inductive FloatVal where
  | finite (x : ℝ)
  | posInf
  | negInf
  | nan

/-- IEEE-754 division of two finite values: division by zero yields a signed
infinity (NaN for 0/0); otherwise the (unrounded) real quotient. -/
noncomputable def fdiv (x y : ℝ) : FloatVal :=
  if y = 0 then
    if x = 0 then FloatVal.nan
    else if 0 < x then FloatVal.posInf
    else FloatVal.negInf
  else FloatVal.finite (x / y)

/-- `RazorMonitor::CalcR` with the final division refined to IEEE-754
special-value semantics (`fdiv`); the float cast of the source's
`float(MTR)/float(MR)` is modelled as exact. -/
noncomputable def CalcRfp (MR : ℝ) (ja jb : LV) (met : V3) : FloatVal :=
  fdiv (CalcMTR ja jb met) MR

/-- Modelled from the spec: `deltaPhi` (defined in `DataFormats/Math`, which
is not part of this source tree) wraps the difference of two azimuthal angles
into an interval of width `2π` centred at zero. -/
noncomputable def deltaPhi (phi1 phi2 : ℝ) : ℝ :=
  (phi1 - phi2) - 2 * Real.pi * round ((phi1 - phi2) / (2 * Real.pi))

/-- The per-instance configuration of `RazorMonitor` that `analyze` and
`bookHistograms` read: folder name, jet multiplicity cut `njets_`, the two
offline razor cuts, the three variable-width binnings, and whether each
`GenericTriggerEventFlag` is switched on (`on()` is fixed by configuration). -/
structure RazorConfig where
  folderName : String
  njets : ℕ
  rsqCut : ℝ
  mrCut : ℝ
  mrBins : List ℝ
  rsqBins : List ℝ
  dphiRBins : List ℝ
  denFlagOn : Bool
  numFlagOn : Bool

/-- The per-event inputs that `RazorMonitor::analyze` reads from the host
framework.  The two trigger-flag `accept` decisions and the result of the
string-compiled `metSelection_` predicate on the leading MET object are
framework services, modelled as the booleans they return for this event;
`jetSel` lists, per jet of the jet collection, the result of the
string-compiled `jetSelection_` predicate on it; `met` is the momentum of
`metHandle->front()`; `hemispheres` is `none` when the handle is invalid. -/
structure Event where
  denAccept : Bool
  numAccept : Bool
  metSelPass : Bool
  met : V3
  jetSel : List Bool
  hemispheres : Option (List LV)

/-- One histogram fill performed by `analyze`: which of the four
numerator/denominator monitor-element pairs, which side, and the value(s). -/
inductive Fill where
  | denMR (x : ℝ)
  | denRsq (x : ℝ)
  | dendPhiR (x : ℝ)
  | denMRVsRsq (x y : ℝ)
  | numMR (x : ℝ)
  | numRsq (x : ℝ)
  | numdPhiR (x : ℝ)
  | numMRVsRsq (x y : ℝ)

/-- `true` exactly on the denominator-side fills. -/
def Fill.isDen : Fill → Bool
  | .denMR _ => true
  | .denRsq _ => true
  | .dendPhiR _ => true
  | .denMRVsRsq _ _ => true
  | _ => false

/-- `true` exactly on the numerator-side fills. -/
def Fill.isNum : Fill → Bool
  | .numMR _ => true
  | .numRsq _ => true
  | .numdPhiR _ => true
  | .numMRVsRsq _ _ => true
  | _ => false

/-- An `edm::LogError("DQM_HLT_Razor")` message emitted by `analyze`. -/
inductive LogMsg where
  | emptyHemispheres
  | invalidHemispheres (n : ℕ)

/-- The return statement through which one invocation of `analyze` leaves the
function (or `complete` when it runs to the end), in source order. -/
inductive ExitPoint where
  | denTrigger1
  | metCut
  | jetHandleCut
  | jetSelCut
  | hemiInvalid
  | hemiEmpty
  | hemiBadSize
  | razorCut
  | denTrigger2
  | numTrigger
  | complete
deriving DecidableEq

/-- The outcome of one invocation of `analyze`: the histogram fills and log
messages it emitted, in order, and the exit point it took. -/
structure AnalyzeResult where
  fills : List Fill
  logs : List LogMsg
  exit : ExitPoint

/-- The hemisphere passed first to `CalcMR`/`CalcR` by `analyze`
(lines 179-189): `at(1)` when `at(1).Pt() > at(0).Pt()`, else `at(0)`. -/
noncomputable def hemiFirstArg (hs : List LV) : LV :=
  if (hs.getD 1 lvZero).Pt > (hs.getD 0 lvZero).Pt then hs.getD 1 lvZero
  else hs.getD 0 lvZero

/-- The hemisphere passed second to `CalcMR`/`CalcR` by `analyze`:
`at(0)` when `at(1).Pt() > at(0).Pt()`, else `at(1)`. -/
noncomputable def hemiSecondArg (hs : List LV) : LV :=
  if (hs.getD 1 lvZero).Pt > (hs.getD 0 lvZero).Pt then hs.getD 0 lvZero
  else hs.getD 1 lvZero

/-- The value `MR` computed by `analyze` from the hemisphere collection. -/
noncomputable def razorMRof (hs : List LV) : ℝ :=
  CalcMR (hemiFirstArg hs) (hemiSecondArg hs)

/-- The value `R` computed by `analyze` from the hemisphere collection and
the MET momentum. -/
noncomputable def razorRof (hs : List LV) (met : V3) : ℝ :=
  CalcR (razorMRof hs) (hemiFirstArg hs) (hemiSecondArg hs) met

/-- The value `Rsq = R*R` computed by `analyze`. -/
noncomputable def razorRsqof (hs : List LV) (met : V3) : ℝ :=
  razorRof hs met * razorRof hs met

/-- The value `dPhiR = abs(deltaPhi(at(0).Phi(), at(1).Phi()))` computed by
`analyze` (line 191); note it uses the hemispheres in collection order, not
pT order. -/
noncomputable def razordPhiRof (hs : List LV) : ℝ :=
  |deltaPhi (hs.getD 0 lvZero).Phi (hs.getD 1 lvZero).Phi|

/-- The denominator fills of `analyze` (lines 199-210): the MR histogram only
when `Rsq >= rsqCut_`, the Rsq histogram only when `MR >= mrCut_`, then the
dPhiR and MRVsRsq histograms unconditionally. -/
noncomputable def denFillsOf (cfg : RazorConfig) (MR Rsq dPhiR : ℝ) : List Fill :=
  (if cfg.rsqCut ≤ Rsq then [Fill.denMR MR] else []) ++
  (if cfg.mrCut ≤ MR then [Fill.denRsq Rsq] else []) ++
  [Fill.dendPhiR dPhiR, Fill.denMRVsRsq MR Rsq]

/-- The numerator fills of `analyze` (lines 215-226), with the same
per-histogram conditions as the denominator fills. -/
noncomputable def numFillsOf (cfg : RazorConfig) (MR Rsq dPhiR : ℝ) : List Fill :=
  (if cfg.rsqCut ≤ Rsq then [Fill.numMR MR] else []) ++
  (if cfg.mrCut ≤ MR then [Fill.numRsq Rsq] else []) ++
  [Fill.numdPhiR dPhiR, Fill.numMRVsRsq MR Rsq]

/-- Lines 179-226 of `RazorMonitor::analyze`, reached once the hemisphere
collection `hs` has passed its checks: compute the razor variables, apply
the razor cut, re-check the denominator trigger, fill the denominator
histograms, check the numerator trigger, fill the numerator histograms. -/
noncomputable def razorStage (cfg : RazorConfig) (ev : Event) (hs : List LV) : AnalyzeResult :=
  let MR := razorMRof hs
  let Rsq := razorRsqof hs ev.met
  let dPhiR := razordPhiRof hs
  if Rsq < cfg.rsqCut ∧ MR < cfg.mrCut then ⟨[], [], .razorCut⟩
  else if cfg.denFlagOn && !ev.denAccept then ⟨[], [], .denTrigger2⟩
  else if cfg.numFlagOn && !ev.numAccept then
    ⟨denFillsOf cfg MR Rsq dPhiR, [], .numTrigger⟩
  else
    ⟨denFillsOf cfg MR Rsq dPhiR ++ numFillsOf cfg MR Rsq dPhiR, [], .complete⟩

/-- `RazorMonitor::analyze` (lines 138-228), as a pure function from the
event inputs to the fills and logs it emits and the exit it takes.  Each
`if ... return` of the source is one branch, in source order. -/
noncomputable def analyze (cfg : RazorConfig) (ev : Event) : AnalyzeResult :=
  if cfg.denFlagOn && !ev.denAccept then ⟨[], [], .denTrigger1⟩
  else if !ev.metSelPass then ⟨[], [], .metCut⟩
  else if ev.jetSel.length < cfg.njets then ⟨[], [], .jetHandleCut⟩
  else if (ev.jetSel.filter id).length < cfg.njets then ⟨[], [], .jetSelCut⟩
  else
    match ev.hemispheres with
    | none => ⟨[], [], .hemiInvalid⟩
    | some hs =>
      if hs.length = 0 then ⟨[], [.emptyHemispheres], .hemiEmpty⟩
      else if hs.length ≠ 0 ∧ hs.length ≠ 2 ∧ hs.length ≠ 5 ∧ hs.length ≠ 10 then
        ⟨[], [.invalidHemispheres hs.length], .hemiBadSize⟩
      else razorStage cfg ev hs

/-- The seven selection gates of the event loop in the order the spec claims
them: denominator-trigger, MET-cut, jet-count-cut, hemisphere-validity,
razor-cut, denominator-trigger again, numerator-trigger.  Each entry is the
proposition that the event passes that gate.  This list follows the spec's
words; `analyze` above follows the source. -/
noncomputable def claimedGates (cfg : RazorConfig) (ev : Event) : List Prop :=
  [ ¬(cfg.denFlagOn = true ∧ ev.denAccept = false)
  , ev.metSelPass = true
  , cfg.njets ≤ ev.jetSel.length ∧ cfg.njets ≤ (ev.jetSel.filter id).length
  , ∃ hs, ev.hemispheres = some hs ∧
      (hs.length = 2 ∨ hs.length = 5 ∨ hs.length = 10)
  , ¬(razorRsqof (ev.hemispheres.getD []) ev.met < cfg.rsqCut ∧
      razorMRof (ev.hemispheres.getD []) < cfg.mrCut)
  , ¬(cfg.denFlagOn = true ∧ ev.denAccept = false)
  , ¬(cfg.numFlagOn = true ∧ ev.numAccept = false) ]

/-- The index of the first proposition in the list that fails, or the length
of the list when all hold. -/
noncomputable def firstFalse : List Prop → ℕ
  | [] => 0
  | p :: ps => if p then firstFalse ps + 1 else 0

/-- Which of the spec's seven ordered gates an exit point corresponds to
(`7` = all gates passed): the source's two jet returns are the spec's single
jet-count gate, and its three hemisphere returns its single
hemisphere-validity gate. -/
def gateIdx : ExitPoint → ℕ
  | .denTrigger1 => 0
  | .metCut => 1
  | .jetHandleCut => 2
  | .jetSelCut => 2
  | .hemiInvalid => 3
  | .hemiEmpty => 3
  | .hemiBadSize => 3
  | .razorCut => 4
  | .denTrigger2 => 5
  | .numTrigger => 6
  | .complete => 7

/-- One call into the host's histogram-booking service performed by
`bookHistograms` (each booked monitor element and each axis-title
assignment is one action, keyed by the full histogram name). -/
inductive BookAction where
  | setCurrentFolder (folder : String)
  | book1DVar (name title : String) (binning : List ℝ)
  | book2DVar (name title : String) (binningX binningY : List ℝ)
  | setAxisTitle (name title : String) (axis : ℕ)
  | initRunNum
  | initRunDen

/-- The variable-binning 1D overload of `RazorMonitor::bookME`: books the
numerator and then the denominator monitor element. -/
def bookME1D (histname histtitle : String) (binning : List ℝ) : List BookAction :=
  [ BookAction.book1DVar (histname ++ "_numerator") (histtitle ++ " (numerator)") binning
  , BookAction.book1DVar (histname ++ "_denominator") (histtitle ++ " (denominator)") binning ]

/-- The variable-binning 2D overload of `RazorMonitor::bookME`. -/
def bookME2D (histname histtitle : String) (binningX binningY : List ℝ) : List BookAction :=
  [ BookAction.book2DVar (histname ++ "_numerator") (histtitle ++ " (numerator)") binningX binningY
  , BookAction.book2DVar (histname ++ "_denominator") (histtitle ++ " (denominator)") binningX binningY ]

/-- `RazorMonitor::setMETitle`: sets the X and Y axis titles on the
numerator and then the denominator of the pair. -/
def setMETitle (histname titleX titleY : String) : List BookAction :=
  [ BookAction.setAxisTitle (histname ++ "_numerator") titleX 1
  , BookAction.setAxisTitle (histname ++ "_numerator") titleY 2
  , BookAction.setAxisTitle (histname ++ "_denominator") titleX 1
  , BookAction.setAxisTitle (histname ++ "_denominator") titleY 2 ]

/-- `RazorMonitor::bookHistograms` (lines 100-134) as the list of booking
actions it performs: set the folder, then book the MR, Rsq, dPhiR and
MRVsRsq pairs, each immediately followed by its axis-title assignments, then
initialise each trigger flag that is on. -/
def bookHistograms (cfg : RazorConfig) : List BookAction :=
  [BookAction.setCurrentFolder cfg.folderName] ++
  bookME1D "MR" "PF MR" cfg.mrBins ++
  setMETitle "MR" "PF M_{R} [GeV]" "events / [GeV]" ++
  bookME1D "Rsq" "PF Rsq" cfg.rsqBins ++
  setMETitle "Rsq" "PF R^{2}" "events" ++
  bookME1D "dPhiR" "dPhiR" cfg.dphiRBins ++
  setMETitle "dPhiR" "dPhi_{R}" "events" ++
  bookME2D "MRVsRsq" "PF MR vs PF Rsq" cfg.mrBins cfg.rsqBins ++
  setMETitle "MRVsRsq" "M_{R} [GeV]" "R^{2}" ++
  (if cfg.numFlagOn then [BookAction.initRunNum] else []) ++
  (if cfg.denFlagOn then [BookAction.initRunDen] else [])

/-- `true` exactly on one-dimensional histogram bookings. -/
def BookAction.isBook1D : BookAction → Bool
  | .book1DVar _ _ _ => true
  | _ => false

/-- `true` exactly on two-dimensional histogram bookings. -/
def BookAction.isBook2D : BookAction → Bool
  | .book2DVar _ _ _ _ => true
  | _ => false

/-- Number of one-dimensional monitor elements booked. -/
def booked1DCount (acts : List BookAction) : ℕ :=
  (acts.filter BookAction.isBook1D).length

/-- Number of two-dimensional monitor elements booked. -/
def booked2DCount (acts : List BookAction) : ℕ :=
  (acts.filter BookAction.isBook2D).length

/-- Number of booked monitor elements; each numerator/denominator pair books
exactly two, so the number of booked pairs is half of this. -/
def bookedHistCount (acts : List BookAction) : ℕ :=
  booked1DCount acts + booked2DCount acts

/-- Number of booked numerator/denominator histogram pairs. -/
def bookedPairCount (acts : List BookAction) : ℕ :=
  bookedHistCount acts / 2

/-- The default configuration registered by `RazorMonitor::fillDescriptions`
("razorMonitoring", lines 231-276): folder `HLT/SUSY/Razor`, `njets = 2`,
`rsqCut = 0.15`, `mrCut = 300`, and the 2016 offline binnings.  Whether each
trigger flag is on is computed by the framework from the nested trigger
parameter sets; `true` is used here as a placeholder. -/
noncomputable def razorMonitoringDefaults : RazorConfig :=
  ⟨"HLT/SUSY/Razor", 2, 0.15, 300,
   [0, 100, 200, 300, 400, 500, 575, 650, 750, 900, 1200, 1600, 2500, 4000],
   [0, 0.05, 0.1, 0.15, 0.2, 0.25, 0.30, 0.41, 0.52, 0.64, 0.8, 1.5],
   [0, 0.5, 1.0, 1.5, 2.0, 2.5, 2.8, 3.0, 3.2],
   true, true⟩

/-- A hemisphere pair in descending pT order: pT 5 then pT 1. -/
def hsPtOrdered : List LV := [⟨3, 4, 0, 5⟩, ⟨0, 1, 0, 1⟩]

/-- A configuration whose gates all pass trivially: no trigger flags, no jet
requirement, `rsqCut = -1` (so `Rsq < rsqCut` is impossible). -/
noncomputable def cfgOpen : RazorConfig :=
  ⟨"HLT/SUSY/Razor", 0, -1, 300, [], [], [], false, false⟩

/-- `cfgOpen` with the numerator trigger flag on. -/
noncomputable def cfgOpenNum : RazorConfig :=
  ⟨"HLT/SUSY/Razor", 0, -1, 300, [], [], [], false, true⟩

/-- `cfgOpen` with the denominator trigger flag on. -/
noncomputable def cfgOpenDen : RazorConfig :=
  ⟨"HLT/SUSY/Razor", 0, -1, 300, [], [], [], true, false⟩

/-- An event with two degenerate (all-zero) hemispheres. -/
def evTwoZeroHemis : Event :=
  ⟨true, true, true, ⟨0, 0, 0⟩, [], some [lvZero, lvZero]⟩

/-- An event with the pT-ordered hemisphere pair and both triggers rejecting. -/
def evReject : Event :=
  ⟨false, false, true, ⟨0, 0, 0⟩, [], some hsPtOrdered⟩

/-- An event whose hemisphere handle is invalid. -/
def evHemiNone : Event := ⟨true, true, true, ⟨0, 0, 0⟩, [], none⟩

/-- An event with an empty hemisphere collection. -/
def evHemiEmpty : Event := ⟨true, true, true, ⟨0, 0, 0⟩, [], some []⟩

/-- An event with a three-element (invalid-size) hemisphere collection. -/
def evHemiThree : Event :=
  ⟨true, true, true, ⟨0, 0, 0⟩, [], some [lvZero, lvZero, lvZero]⟩

/-! ## Theorems -/

theorem lvZero_Pt : lvZero.Pt = 0 := by
  show Real.sqrt ((0:ℝ) ^ 2 + 0 ^ 2) = 0
  rw [show ((0:ℝ) ^ 2 + 0 ^ 2) = 0 by norm_num, Real.sqrt_zero]

theorem hemiFirstArg_pair (a b : LV) (h : ¬ b.Pt > a.Pt) :
    hemiFirstArg [a, b] = a := by
  unfold hemiFirstArg
  simp only [List.getD_cons_succ, List.getD_cons_zero]
  rw [if_neg h]

theorem hemiSecondArg_pair (a b : LV) (h : ¬ b.Pt > a.Pt) :
    hemiSecondArg [a, b] = b := by
  unfold hemiSecondArg
  simp only [List.getD_cons_succ, List.getD_cons_zero]
  rw [if_neg h]

/-- **C3**: if the leading hemisphere (the first argument, which `analyze`
makes the higher-pT one) has `Pt() <= 0.1`, `CalcMR` returns exactly the
sentinel `-1`; `analyze` then uses this value unchecked: its `MR` is `-1`
and its `R` is computed by passing `-1` straight into `CalcR`. -/
theorem calcMR_sentinel (ja jb : LV) (h : ja.Pt ≤ 0.1) :
    CalcMR ja jb = -1 ∧
    ∀ (hs : List LV) (met : V3),
      hemiFirstArg hs = ja → hemiSecondArg hs = jb →
        razorMRof hs = -1 ∧ razorRof hs met = CalcR (-1) ja jb met := by
  have hm : CalcMR ja jb = -1 := by
    unfold CalcMR
    rw [if_pos h]
  refine ⟨hm, ?_⟩
  intro hs met h1 h2
  have hmr : razorMRof hs = -1 := by
    rw [razorMRof, h1, h2, hm]
  exact ⟨hmr, by rw [razorRof, hmr, h1, h2]⟩

/-- Witness for `calcMR_sentinel`: two all-zero hemispheres. -/
theorem calcMR_sentinel_witness :
    lvZero.Pt ≤ 0.1 ∧ CalcMR lvZero lvZero = -1 ∧
    razorMRof [lvZero, lvZero] = -1 := by
  have hPt : lvZero.Pt ≤ 0.1 := by rw [lvZero_Pt]; norm_num
  have h := calcMR_sentinel lvZero lvZero hPt
  have hne : ¬ lvZero.Pt > lvZero.Pt := lt_irrefl _
  exact ⟨hPt, h.1,
    (h.2 [lvZero, lvZero] ⟨0, 0, 0⟩ (hemiFirstArg_pair _ _ hne)
      (hemiSecondArg_pair _ _ hne)).1⟩

theorem pt345 : (LV.mk 3 4 0 5).Pt = 5 := by
  show Real.sqrt ((3:ℝ) ^ 2 + 4 ^ 2) = 5
  rw [show ((3:ℝ) ^ 2 + 4 ^ 2) = 5 ^ 2 by norm_num,
    Real.sqrt_sq (by norm_num : (0:ℝ) ≤ 5)]

theorem pt011 : (LV.mk 0 1 0 1).Pt = 1 := by
  show Real.sqrt ((0:ℝ) ^ 2 + 1 ^ 2) = 1
  rw [show ((0:ℝ) ^ 2 + 1 ^ 2) = 1 by norm_num, Real.sqrt_one]

/-- **C4**, counterexample: on the hemisphere pair `[(3,4,0,5), (0,1,0,1)]`
(pT 5 then pT 1), `analyze` passes the pT-5 vector as the *first* argument of
`CalcMR`/`CalcR` and the pT-1 vector as the second, so the second argument
has strictly *lower* transverse momentum, refuting "higher-pT vector passed
as the second argument". -/
theorem hemiArg_order_counterexample :
    hemiFirstArg hsPtOrdered = ⟨3, 4, 0, 5⟩ ∧
    hemiSecondArg hsPtOrdered = ⟨0, 1, 0, 1⟩ ∧
    (hemiSecondArg hsPtOrdered).Pt < (hemiFirstArg hsPtOrdered).Pt ∧
    razorMRof hsPtOrdered = CalcMR (hemiFirstArg hsPtOrdered) (hemiSecondArg hsPtOrdered) := by
  have hc : ¬ (LV.mk 0 1 0 1).Pt > (LV.mk 3 4 0 5).Pt := by
    rw [pt011, pt345]; norm_num
  have h1 : hemiFirstArg hsPtOrdered = ⟨3, 4, 0, 5⟩ := hemiFirstArg_pair _ _ hc
  have h2 : hemiSecondArg hsPtOrdered = ⟨0, 1, 0, 1⟩ := hemiSecondArg_pair _ _ hc
  refine ⟨h1, h2, ?_, rfl⟩
  rw [h1, h2, pt011, pt345]; norm_num

/-- **C4**, amended: `analyze` orders the two hemispheres by transverse
momentum and passes the higher-pT vector as the *first* argument of both
`CalcMR` and `CalcR` (and the lower-pT one second). -/
theorem hemiArg_order (hs : List LV) (met : V3) :
    razorMRof hs = CalcMR (hemiFirstArg hs) (hemiSecondArg hs) ∧
    razorRof hs met = CalcR (razorMRof hs) (hemiFirstArg hs) (hemiSecondArg hs) met ∧
    (hemiSecondArg hs).Pt ≤ (hemiFirstArg hs).Pt := by
  refine ⟨rfl, rfl, ?_⟩
  unfold hemiFirstArg hemiSecondArg
  by_cases h : (hs.getD 1 lvZero).Pt > (hs.getD 0 lvZero).Pt
  · rw [if_pos h, if_pos h]
    exact le_of_lt h
  · rw [if_neg h, if_neg h]
    exact not_lt.mp h

/-- **C5**: `CalcR` returns `MTR / MR` with
`MTR = sqrt(0.5*(|MET|*(pT_a+pT_b) - MET.(vec a + vec b)))`, and the final
division is unguarded: under IEEE-754 division semantics (`CalcRfp`), an
`MR` of `0` yields `+inf` or `NaN` rather than an error, while any nonzero
`MR` yields the finite quotient. -/
theorem calcR_div (MR : ℝ) (ja jb : LV) (met : V3) :
    CalcR MR ja jb met =
      Real.sqrt (0.5 * (met.R * (ja.Pt + jb.Pt) - met.dot (ja.Vect.add jb.Vect))) / MR ∧
    (MR = 0 → CalcRfp MR ja jb met = FloatVal.posInf ∨
      CalcRfp MR ja jb met = FloatVal.nan) ∧
    (MR ≠ 0 → CalcRfp MR ja jb met = FloatVal.finite (CalcR MR ja jb met)) := by
  refine ⟨rfl, ?_, ?_⟩
  · intro h0
    unfold CalcRfp fdiv
    rw [if_pos h0]
    by_cases hx : CalcMTR ja jb met = 0
    · rw [if_pos hx]
      exact Or.inr rfl
    · have hpos : 0 < CalcMTR ja jb met :=
        lt_of_le_of_ne (Real.sqrt_nonneg _) (Ne.symm hx)
      rw [if_neg hx, if_pos hpos]
      exact Or.inl rfl
  · intro h0
    unfold CalcRfp fdiv
    rw [if_neg h0]
    rfl

/-- Witness for `calcR_div`: `MR = 0` with all-zero hemispheres and MET. -/
theorem calcR_div_witness :
    (0:ℝ) = 0 ∧
    (CalcRfp 0 lvZero lvZero ⟨0, 0, 0⟩ = FloatVal.posInf ∨
     CalcRfp 0 lvZero lvZero ⟨0, 0, 0⟩ = FloatVal.nan) :=
  ⟨rfl, (calcR_div 0 lvZero lvZero ⟨0, 0, 0⟩).2.1 rfl⟩

theorem abs_deltaPhi_le_pi (x y : ℝ) : |deltaPhi x y| ≤ Real.pi := by
  have h2pos : (0:ℝ) < 2 * Real.pi := by positivity
  have hexp : deltaPhi x y =
      2 * Real.pi * ((x - y) / (2 * Real.pi) -
        (round ((x - y) / (2 * Real.pi)) : ℝ)) := by
    unfold deltaPhi
    rw [mul_sub]
    congr 1
    rw [mul_div_cancel₀ _ (ne_of_gt h2pos)]
  rw [hexp, abs_mul, abs_of_pos h2pos]
  have habs : |(x - y) / (2 * Real.pi) -
      (round ((x - y) / (2 * Real.pi)) : ℝ)| ≤ 1 / 2 := abs_sub_round _
  calc 2 * Real.pi * |(x - y) / (2 * Real.pi) -
        (round ((x - y) / (2 * Real.pi)) : ℝ)|
      ≤ 2 * Real.pi * (1 / 2) := by
        exact mul_le_mul_of_nonneg_left habs (le_of_lt h2pos)
    _ = Real.pi := by ring

/-- **C6**: the `dPhiR` computed by `analyze` is the absolute value of the
wrapped difference of the two hemisphere azimuthal angles and always lies in
`[0, π]`. -/
theorem razordPhiR_range (hs : List LV) :
    razordPhiRof hs =
      |deltaPhi (hs.getD 0 lvZero).Phi (hs.getD 1 lvZero).Phi| ∧
    0 ≤ razordPhiRof hs ∧ razordPhiRof hs ≤ Real.pi :=
  ⟨rfl, abs_nonneg _, abs_deltaPhi_le_pi _ _⟩

/-- **C9**, counterexample: with the `razorMonitoring` default configuration,
`bookHistograms` books 4 numerator/denominator pairs (8 monitor elements:
6 one-dimensional, 2 two-dimensional), not the 5 pairs the claim states. -/
theorem bookHistograms_pairCount_counterexample :
    bookedPairCount (bookHistograms razorMonitoringDefaults) = 4 ∧
    bookedPairCount (bookHistograms razorMonitoringDefaults) ≠ 5 ∧
    booked1DCount (bookHistograms razorMonitoringDefaults) = 6 ∧
    booked2DCount (bookHistograms razorMonitoringDefaults) = 2 := by
  refine ⟨rfl, ?_, rfl, rfl⟩
  intro h
  have h4 : bookedPairCount (bookHistograms razorMonitoringDefaults) = 4 := rfl
  rw [h4] at h
  exact absurd h (by norm_num)

/-- **C9**, amended: for every configuration, the per-run `bookHistograms`
books *four* numerator/denominator histogram pairs — three one-dimensional
(MR, Rsq, dPhiR, each with the configured variable-width bin edges) and one
two-dimensional (MR vs Rsq) — under the configured folder path (set first),
with the axis titles of each pair set immediately after booking it. -/
theorem bookHistograms_trace (cfg : RazorConfig) :
    bookedPairCount (bookHistograms cfg) = 4 ∧
    booked1DCount (bookHistograms cfg) = 6 ∧
    booked2DCount (bookHistograms cfg) = 2 ∧
    bookHistograms cfg =
      [BookAction.setCurrentFolder cfg.folderName,
       BookAction.book1DVar "MR_numerator" "PF MR (numerator)" cfg.mrBins,
       BookAction.book1DVar "MR_denominator" "PF MR (denominator)" cfg.mrBins,
       BookAction.setAxisTitle "MR_numerator" "PF M_{R} [GeV]" 1,
       BookAction.setAxisTitle "MR_numerator" "events / [GeV]" 2,
       BookAction.setAxisTitle "MR_denominator" "PF M_{R} [GeV]" 1,
       BookAction.setAxisTitle "MR_denominator" "events / [GeV]" 2,
       BookAction.book1DVar "Rsq_numerator" "PF Rsq (numerator)" cfg.rsqBins,
       BookAction.book1DVar "Rsq_denominator" "PF Rsq (denominator)" cfg.rsqBins,
       BookAction.setAxisTitle "Rsq_numerator" "PF R^{2}" 1,
       BookAction.setAxisTitle "Rsq_numerator" "events" 2,
       BookAction.setAxisTitle "Rsq_denominator" "PF R^{2}" 1,
       BookAction.setAxisTitle "Rsq_denominator" "events" 2,
       BookAction.book1DVar "dPhiR_numerator" "dPhiR (numerator)" cfg.dphiRBins,
       BookAction.book1DVar "dPhiR_denominator" "dPhiR (denominator)" cfg.dphiRBins,
       BookAction.setAxisTitle "dPhiR_numerator" "dPhi_{R}" 1,
       BookAction.setAxisTitle "dPhiR_numerator" "events" 2,
       BookAction.setAxisTitle "dPhiR_denominator" "dPhi_{R}" 1,
       BookAction.setAxisTitle "dPhiR_denominator" "events" 2,
       BookAction.book2DVar "MRVsRsq_numerator" "PF MR vs PF Rsq (numerator)" cfg.mrBins cfg.rsqBins,
       BookAction.book2DVar "MRVsRsq_denominator" "PF MR vs PF Rsq (denominator)" cfg.mrBins cfg.rsqBins,
       BookAction.setAxisTitle "MRVsRsq_numerator" "M_{R} [GeV]" 1,
       BookAction.setAxisTitle "MRVsRsq_numerator" "R^{2}" 2,
       BookAction.setAxisTitle "MRVsRsq_denominator" "M_{R} [GeV]" 1,
       BookAction.setAxisTitle "MRVsRsq_denominator" "R^{2}" 2] ++
      (if cfg.numFlagOn then [BookAction.initRunNum] else []) ++
      (if cfg.denFlagOn then [BookAction.initRunDen] else []) := by
  obtain ⟨f, nj, rc, mc, mb, rb, db, dOn, nOn⟩ := cfg
  cases dOn <;> cases nOn <;> refine ⟨?_, ?_, ?_, ?_⟩ <;>
    simp [bookedPairCount, bookedHistCount, booked1DCount, booked2DCount,
      bookHistograms, bookME1D, bookME2D, setMETitle,
      BookAction.isBook1D, BookAction.isBook2D]

theorem mem_ite_singleton {α : Type} {p : Prop} [Decidable p] {x f : α}
    (h : f ∈ if p then [x] else []) : f = x := by
  split_ifs at h
  · simpa using h
  · simp at h

theorem denFillsOf_forall_isDen (cfg : RazorConfig) (a b c : ℝ) :
    ∀ f ∈ denFillsOf cfg a b c, f.isDen = true := by
  intro f hf
  unfold denFillsOf at hf
  rcases List.mem_append.mp hf with h | h
  · rcases List.mem_append.mp h with h' | h'
    · rw [mem_ite_singleton h']; rfl
    · rw [mem_ite_singleton h']; rfl
  · rcases List.mem_cons.mp h with rfl | h'
    · rfl
    rcases List.mem_cons.mp h' with rfl | h''
    · rfl
    simp at h''

theorem numFillsOf_forall_isNum (cfg : RazorConfig) (a b c : ℝ) :
    ∀ f ∈ numFillsOf cfg a b c, f.isNum = true := by
  intro f hf
  unfold numFillsOf at hf
  rcases List.mem_append.mp hf with h | h
  · rcases List.mem_append.mp h with h' | h'
    · rw [mem_ite_singleton h']; rfl
    · rw [mem_ite_singleton h']; rfl
  · rcases List.mem_cons.mp h with rfl | h'
    · rfl
    rcases List.mem_cons.mp h' with rfl | h''
    · rfl
    simp at h''

theorem Fill.isNum_eq_not_isDen (f : Fill) : f.isNum = !f.isDen := by
  cases f <;> rfl

theorem denFillsOf_ne_nil (cfg : RazorConfig) (a b c : ℝ) :
    denFillsOf cfg a b c ≠ [] := by
  unfold denFillsOf
  split_ifs <;> simp

theorem razorStage_shape (cfg : RazorConfig) (ev : Event) (hs : List LV) :
    ((razorStage cfg ev hs).fills = [] ∧
      ((razorStage cfg ev hs).exit = ExitPoint.razorCut ∨
       (razorStage cfg ev hs).exit = ExitPoint.denTrigger2))
  ∨ ((razorStage cfg ev hs).exit = ExitPoint.numTrigger ∧
      (razorStage cfg ev hs).fills =
        denFillsOf cfg (razorMRof hs) (razorRsqof hs ev.met) (razordPhiRof hs))
  ∨ ((razorStage cfg ev hs).exit = ExitPoint.complete ∧
      (razorStage cfg ev hs).fills =
        denFillsOf cfg (razorMRof hs) (razorRsqof hs ev.met) (razordPhiRof hs) ++
        numFillsOf cfg (razorMRof hs) (razorRsqof hs ev.met) (razordPhiRof hs)) := by
  unfold razorStage
  by_cases hrz : razorRsqof hs ev.met < cfg.rsqCut ∧ razorMRof hs < cfg.mrCut
  · rw [if_pos hrz]
    exact Or.inl ⟨rfl, Or.inl rfl⟩
  · rw [if_neg hrz]
    by_cases hden : (cfg.denFlagOn && !ev.denAccept) = true
    · rw [if_pos hden]
      exact Or.inl ⟨rfl, Or.inr rfl⟩
    · rw [if_neg hden]
      by_cases hnum : (cfg.numFlagOn && !ev.numAccept) = true
      · rw [if_pos hnum]
        exact Or.inr (Or.inl ⟨rfl, rfl⟩)
      · rw [if_neg hnum]
        exact Or.inr (Or.inr ⟨rfl, rfl⟩)

theorem analyze_reach (cfg : RazorConfig) (ev : Event) (hs : List LV)
    (hhem : ev.hemispheres = some hs)
    (hden : (cfg.denFlagOn && !ev.denAccept) = false)
    (hmet : ev.metSelPass = true)
    (hjet1 : ¬ ev.jetSel.length < cfg.njets)
    (hjet2 : ¬ (ev.jetSel.filter id).length < cfg.njets)
    (hsize : hs.length = 2 ∨ hs.length = 5 ∨ hs.length = 10) :
    analyze cfg ev = razorStage cfg ev hs := by
  have h0 : ¬ hs.length = 0 := by rcases hsize with h | h | h <;> omega
  have hbad : ¬ (hs.length ≠ 0 ∧ hs.length ≠ 2 ∧ hs.length ≠ 5 ∧ hs.length ≠ 10) := by
    rcases hsize with h | h | h <;> simp [h]
  unfold analyze
  rw [hhem]
  simp only [hden, hmet, hjet1, hjet2, h0, Bool.false_eq_true, Bool.not_true,
    if_false, ite_false, ite_true, eq_self_iff_true, not_false_iff]
  simp [hden, hmet, hjet1, hjet2, h0]
  intro h2 h5 h10
  rcases hsize with h | h | h
  · exact absurd h h2
  · exact absurd h h5
  · exact absurd h h10

theorem analyze_hemi_none (cfg : RazorConfig) (ev : Event)
    (hhem : ev.hemispheres = none)
    (hden : (cfg.denFlagOn && !ev.denAccept) = false)
    (hmet : ev.metSelPass = true)
    (hjet1 : ¬ ev.jetSel.length < cfg.njets)
    (hjet2 : ¬ (ev.jetSel.filter id).length < cfg.njets) :
    analyze cfg ev = ⟨[], [], ExitPoint.hemiInvalid⟩ := by
  unfold analyze
  rw [hhem]
  simp [hden, hmet, hjet1, hjet2]

theorem analyze_hemi_empty (cfg : RazorConfig) (ev : Event) (hs : List LV)
    (hhem : ev.hemispheres = some hs) (hlen : hs.length = 0)
    (hden : (cfg.denFlagOn && !ev.denAccept) = false)
    (hmet : ev.metSelPass = true)
    (hjet1 : ¬ ev.jetSel.length < cfg.njets)
    (hjet2 : ¬ (ev.jetSel.filter id).length < cfg.njets) :
    analyze cfg ev = ⟨[], [LogMsg.emptyHemispheres], ExitPoint.hemiEmpty⟩ := by
  unfold analyze
  rw [hhem]
  simp [hden, hmet, hjet1, hjet2, hlen]

theorem analyze_hemi_badSize (cfg : RazorConfig) (ev : Event) (hs : List LV)
    (hhem : ev.hemispheres = some hs)
    (hbad : hs.length ≠ 0 ∧ hs.length ≠ 2 ∧ hs.length ≠ 5 ∧ hs.length ≠ 10)
    (hden : (cfg.denFlagOn && !ev.denAccept) = false)
    (hmet : ev.metSelPass = true)
    (hjet1 : ¬ ev.jetSel.length < cfg.njets)
    (hjet2 : ¬ (ev.jetSel.filter id).length < cfg.njets) :
    analyze cfg ev = ⟨[], [LogMsg.invalidHemispheres hs.length], ExitPoint.hemiBadSize⟩ := by
  unfold analyze
  rw [hhem]
  simp [hden, hmet, hjet1, hjet2, hbad.1, hbad.2.1, hbad.2.2.1, hbad.2.2.2]

theorem razorStage_exit_razorCut (cfg : RazorConfig) (ev : Event) (hs : List LV) :
    (razorStage cfg ev hs).exit = ExitPoint.razorCut ↔
      razorRsqof hs ev.met < cfg.rsqCut ∧ razorMRof hs < cfg.mrCut := by
  unfold razorStage
  by_cases h : razorRsqof hs ev.met < cfg.rsqCut ∧ razorMRof hs < cfg.mrCut
  · rw [if_pos h]
    simpa using h
  · rw [if_neg h]
    split_ifs <;> simp [h]

theorem boolGate_false {flagOn accept : Bool}
    (h : ¬(flagOn = true ∧ accept = false)) : (flagOn && !accept) = false := by
  cases flagOn <;> cases accept <;> simp_all

/-- **C2**: for an event that reaches the razor computation, `analyze`
returns at the razor-cut gate if and only if *both* `Rsq < rsqCut_` and
`MR < mrCut_` hold; equivalently it passes the gate whenever at least one of
`Rsq >= rsqCut_` or `MR >= mrCut_` holds (an OR of the two axes). -/
theorem razor_cut_gate (cfg : RazorConfig) (ev : Event) (hs : List LV)
    (hhem : ev.hemispheres = some hs)
    (hden : ¬(cfg.denFlagOn = true ∧ ev.denAccept = false))
    (hmet : ev.metSelPass = true)
    (hjets : cfg.njets ≤ ev.jetSel.length ∧ cfg.njets ≤ (ev.jetSel.filter id).length)
    (hsize : hs.length = 2 ∨ hs.length = 5 ∨ hs.length = 10) :
    ((analyze cfg ev).exit = ExitPoint.razorCut ↔
      razorRsqof hs ev.met < cfg.rsqCut ∧ razorMRof hs < cfg.mrCut) ∧
    ((analyze cfg ev).exit ≠ ExitPoint.razorCut ↔
      cfg.rsqCut ≤ razorRsqof hs ev.met ∨ cfg.mrCut ≤ razorMRof hs) := by
  have hr : analyze cfg ev = razorStage cfg ev hs :=
    analyze_reach cfg ev hs hhem (boolGate_false hden) hmet
      (not_lt.mpr hjets.1) (not_lt.mpr hjets.2) hsize
  rw [hr]
  refine ⟨razorStage_exit_razorCut cfg ev hs, ?_⟩
  rw [Ne, razorStage_exit_razorCut cfg ev hs, not_and_or, not_lt, not_lt]

/-- Witness for `razor_cut_gate`: an open configuration and an event with two
degenerate hemispheres. -/
theorem razor_cut_gate_witness :
    evTwoZeroHemis.hemispheres = some [lvZero, lvZero] ∧
    ¬(cfgOpen.denFlagOn = true ∧ evTwoZeroHemis.denAccept = false) ∧
    evTwoZeroHemis.metSelPass = true ∧
    (cfgOpen.njets ≤ evTwoZeroHemis.jetSel.length ∧
     cfgOpen.njets ≤ (evTwoZeroHemis.jetSel.filter id).length) ∧
    ([lvZero, lvZero] : List LV).length = 2 ∧
    ((analyze cfgOpen evTwoZeroHemis).exit = ExitPoint.razorCut ↔
      razorRsqof [lvZero, lvZero] evTwoZeroHemis.met < cfgOpen.rsqCut ∧
      razorMRof [lvZero, lvZero] < cfgOpen.mrCut) := by
  have hhem : evTwoZeroHemis.hemispheres = some [lvZero, lvZero] := rfl
  have hden : ¬(cfgOpen.denFlagOn = true ∧ evTwoZeroHemis.denAccept = false) := by
    rintro ⟨h, _⟩
    exact Bool.noConfusion h
  have hmet : evTwoZeroHemis.metSelPass = true := rfl
  have hjets : cfgOpen.njets ≤ evTwoZeroHemis.jetSel.length ∧
      cfgOpen.njets ≤ (evTwoZeroHemis.jetSel.filter id).length :=
    ⟨Nat.zero_le _, Nat.zero_le _⟩
  have hsize : ([lvZero, lvZero] : List LV).length = 2 ∨
      ([lvZero, lvZero] : List LV).length = 5 ∨
      ([lvZero, lvZero] : List LV).length = 10 := Or.inl rfl
  exact ⟨hhem, hden, hmet, hjets, rfl,
    (razor_cut_gate cfgOpen evTwoZeroHemis [lvZero, lvZero]
      hhem hden hmet hjets hsize).1⟩

theorem analyze_shape (cfg : RazorConfig) (ev : Event) :
    ((analyze cfg ev).fills = [] ∧ gateIdx (analyze cfg ev).exit ≤ 5)
  ∨ (∃ hs, ev.hemispheres = some hs ∧
      (analyze cfg ev).exit = ExitPoint.numTrigger ∧
      (analyze cfg ev).fills =
        denFillsOf cfg (razorMRof hs) (razorRsqof hs ev.met) (razordPhiRof hs))
  ∨ (∃ hs, ev.hemispheres = some hs ∧
      (analyze cfg ev).exit = ExitPoint.complete ∧
      (analyze cfg ev).fills =
        denFillsOf cfg (razorMRof hs) (razorRsqof hs ev.met) (razordPhiRof hs) ++
        numFillsOf cfg (razorMRof hs) (razorRsqof hs ev.met) (razordPhiRof hs)) := by
  unfold analyze
  by_cases h1 : (cfg.denFlagOn && !ev.denAccept) = true
  · rw [if_pos h1]
    exact Or.inl ⟨rfl, by simp [gateIdx]⟩
  rw [if_neg h1]
  by_cases h2 : (!ev.metSelPass) = true
  · rw [if_pos h2]
    exact Or.inl ⟨rfl, by simp [gateIdx]⟩
  rw [if_neg h2]
  by_cases h3 : ev.jetSel.length < cfg.njets
  · rw [if_pos h3]
    exact Or.inl ⟨rfl, by simp [gateIdx]⟩
  rw [if_neg h3]
  by_cases h4 : (ev.jetSel.filter id).length < cfg.njets
  · rw [if_pos h4]
    exact Or.inl ⟨rfl, by simp [gateIdx]⟩
  rw [if_neg h4]
  cases hh : ev.hemispheres with
  | none => exact Or.inl ⟨rfl, by simp [gateIdx]⟩
  | some hs =>
    dsimp only
    by_cases h5 : hs.length = 0
    · rw [if_pos h5]
      exact Or.inl ⟨rfl, by simp [gateIdx]⟩
    rw [if_neg h5]
    by_cases h6 : hs.length ≠ 0 ∧ hs.length ≠ 2 ∧ hs.length ≠ 5 ∧ hs.length ≠ 10
    · rw [if_pos h6]
      exact Or.inl ⟨rfl, by simp [gateIdx]⟩
    rw [if_neg h6]
    rcases razorStage_shape cfg ev hs with ⟨hf, he⟩ | ⟨he, hf⟩ | ⟨he, hf⟩
    · refine Or.inl ⟨hf, ?_⟩
      rcases he with he | he <;> rw [he] <;> simp [gateIdx]
    · exact Or.inr (Or.inl ⟨hs, rfl, he, hf⟩)
    · exact Or.inr (Or.inr ⟨hs, rfl, he, hf⟩)

/-- **C7**: whenever `analyze` returns at or before the second
denominator-trigger gate no histogram is filled at all, and an event
rejected only at the numerator-trigger gate gets exactly the denominator
fills and no numerator fill. -/
theorem analyze_fill_discipline (cfg : RazorConfig) (ev : Event) :
    (gateIdx (analyze cfg ev).exit ≤ 5 → (analyze cfg ev).fills = []) ∧
    ((analyze cfg ev).exit = ExitPoint.numTrigger →
      ∃ hs, ev.hemispheres = some hs ∧
        (analyze cfg ev).fills =
          denFillsOf cfg (razorMRof hs) (razorRsqof hs ev.met) (razordPhiRof hs) ∧
        ∀ f ∈ (analyze cfg ev).fills, f.isNum = false) := by
  rcases analyze_shape cfg ev with ⟨hf, hi⟩ | ⟨hs, hh, he, hf⟩ | ⟨hs, hh, he, hf⟩
  · refine ⟨fun _ => hf, fun hn => ?_⟩
    rw [hn] at hi
    simp [gateIdx] at hi
  · refine ⟨fun h5 => ?_, fun _ => ⟨hs, hh, hf, ?_⟩⟩
    · rw [he] at h5
      simp [gateIdx] at h5
    · intro f hfm
      rw [hf] at hfm
      have hd := denFillsOf_forall_isDen cfg _ _ _ f hfm
      rw [Fill.isNum_eq_not_isDen, hd]
      rfl
  · refine ⟨fun h5 => ?_, fun hn => ?_⟩
    · rw [he] at h5
      simp [gateIdx] at h5
    · rw [he] at hn
      simp at hn

theorem analyze_openNum_eval :
    analyze cfgOpenNum evReject =
      ⟨denFillsOf cfgOpenNum (razorMRof hsPtOrdered)
        (razorRsqof hsPtOrdered evReject.met) (razordPhiRof hsPtOrdered),
       [], ExitPoint.numTrigger⟩ := by
  have hreach : analyze cfgOpenNum evReject = razorStage cfgOpenNum evReject hsPtOrdered :=
    analyze_reach cfgOpenNum evReject hsPtOrdered rfl rfl rfl
      (Nat.lt_irrefl 0) (Nat.lt_irrefl 0) (Or.inl rfl)
  have hnotrz : ¬(razorRsqof hsPtOrdered evReject.met < cfgOpenNum.rsqCut ∧
      razorMRof hsPtOrdered < cfgOpenNum.mrCut) := by
    rintro ⟨ha, _⟩
    have h0 : (0:ℝ) ≤ razorRsqof hsPtOrdered evReject.met :=
      mul_self_nonneg (razorRof hsPtOrdered evReject.met)
    have hc : cfgOpenNum.rsqCut = -1 := rfl
    rw [hc] at ha
    linarith
  rw [hreach]
  unfold razorStage
  rw [if_neg hnotrz,
    if_neg (show ¬(cfgOpenNum.denFlagOn && !evReject.denAccept) = true from
      fun h => Bool.noConfusion h),
    if_pos (show (cfgOpenNum.numFlagOn && !evReject.numAccept) = true from rfl)]

/-- Witness for `analyze_fill_discipline`: an event rejected at the first
denominator-trigger gate (no fills) and one rejected at the
numerator-trigger gate (denominator fills only). -/
theorem analyze_fill_discipline_witness :
    (gateIdx (analyze cfgOpenDen evReject).exit ≤ 5 ∧
      (analyze cfgOpenDen evReject).fills = []) ∧
    ((analyze cfgOpenNum evReject).exit = ExitPoint.numTrigger ∧
      ∃ hs, evReject.hemispheres = some hs ∧
        (analyze cfgOpenNum evReject).fills =
          denFillsOf cfgOpenNum (razorMRof hs)
            (razorRsqof hs evReject.met) (razordPhiRof hs) ∧
        ∀ f ∈ (analyze cfgOpenNum evReject).fills, f.isNum = false) := by
  have e1 : analyze cfgOpenDen evReject = ⟨[], [], ExitPoint.denTrigger1⟩ := by
    unfold analyze
    rw [if_pos (show (cfgOpenDen.denFlagOn && !evReject.denAccept) = true from rfl)]
  have h5 : gateIdx (analyze cfgOpenDen evReject).exit ≤ 5 := by
    rw [e1]
    simp [gateIdx]
  have hexit : (analyze cfgOpenNum evReject).exit = ExitPoint.numTrigger := by
    rw [analyze_openNum_eval]
  exact ⟨⟨h5, (analyze_fill_discipline cfgOpenDen evReject).1 h5⟩,
    ⟨hexit, (analyze_fill_discipline cfgOpenNum evReject).2 hexit⟩⟩

/-- **C8**: once the earlier gates have passed, an invalid hemisphere handle
makes `analyze` return silently; a 0-sized collection logs an error and
returns; a size other than 0, 2, 5 or 10 logs an error and returns; in all
three cases nothing is filled, and exactly the sizes 2, 5 and 10 proceed to
the razor computation. -/
theorem hemisphere_checks (cfg : RazorConfig) (ev : Event)
    (hden : ¬(cfg.denFlagOn = true ∧ ev.denAccept = false))
    (hmet : ev.metSelPass = true)
    (hjets : cfg.njets ≤ ev.jetSel.length ∧ cfg.njets ≤ (ev.jetSel.filter id).length) :
    (ev.hemispheres = none → analyze cfg ev = ⟨[], [], ExitPoint.hemiInvalid⟩) ∧
    ∀ hs, ev.hemispheres = some hs →
      (hs.length = 0 →
        analyze cfg ev = ⟨[], [LogMsg.emptyHemispheres], ExitPoint.hemiEmpty⟩) ∧
      (hs.length ≠ 0 ∧ hs.length ≠ 2 ∧ hs.length ≠ 5 ∧ hs.length ≠ 10 →
        analyze cfg ev =
          ⟨[], [LogMsg.invalidHemispheres hs.length], ExitPoint.hemiBadSize⟩) ∧
      ((hs.length = 2 ∨ hs.length = 5 ∨ hs.length = 10) →
        4 ≤ gateIdx (analyze cfg ev).exit) := by
  have hb := boolGate_false hden
  have hj1 := not_lt.mpr hjets.1
  have hj2 := not_lt.mpr hjets.2
  refine ⟨fun hn => analyze_hemi_none cfg ev hn hb hmet hj1 hj2,
    fun hs hh => ⟨?_, ?_, ?_⟩⟩
  · exact fun h0 => analyze_hemi_empty cfg ev hs hh h0 hb hmet hj1 hj2
  · exact fun hbad => analyze_hemi_badSize cfg ev hs hh hbad hb hmet hj1 hj2
  · intro hsize
    rw [analyze_reach cfg ev hs hh hb hmet hj1 hj2 hsize]
    rcases razorStage_shape cfg ev hs with ⟨_, he | he⟩ | ⟨he, _⟩ | ⟨he, _⟩ <;>
      rw [he] <;> simp [gateIdx]

/-- Witness for `hemisphere_checks`: the four hemisphere scenarios (invalid
handle, empty, size 3, size 2) under the open configuration. -/
theorem hemisphere_checks_witness :
    analyze cfgOpen evHemiNone = ⟨[], [], ExitPoint.hemiInvalid⟩ ∧
    analyze cfgOpen evHemiEmpty =
      ⟨[], [LogMsg.emptyHemispheres], ExitPoint.hemiEmpty⟩ ∧
    analyze cfgOpen evHemiThree =
      ⟨[], [LogMsg.invalidHemispheres 3], ExitPoint.hemiBadSize⟩ ∧
    4 ≤ gateIdx (analyze cfgOpen evTwoZeroHemis).exit := by
  have hden1 : ∀ ev : Event, ev.denAccept = true →
      ¬(cfgOpen.denFlagOn = true ∧ ev.denAccept = false) := by
    rintro ev hacc ⟨h, _⟩
    exact Bool.noConfusion h
  refine ⟨?_, ?_, ?_, ?_⟩
  · exact (hemisphere_checks cfgOpen evHemiNone (hden1 _ rfl) rfl
      ⟨Nat.zero_le _, Nat.zero_le _⟩).1 rfl
  · exact ((hemisphere_checks cfgOpen evHemiEmpty (hden1 _ rfl) rfl
      ⟨Nat.zero_le _, Nat.zero_le _⟩).2 [] rfl).1 rfl
  · exact ((hemisphere_checks cfgOpen evHemiThree (hden1 _ rfl) rfl
      ⟨Nat.zero_le _, Nat.zero_le _⟩).2 [lvZero, lvZero, lvZero] rfl).2.1
      ⟨by decide, by decide, by decide, by decide⟩
  · exact ((hemisphere_checks cfgOpen evTwoZeroHemis (hden1 _ rfl) rfl
      ⟨Nat.zero_le _, Nat.zero_le _⟩).2 [lvZero, lvZero] rfl).2.2 (Or.inl rfl)

theorem analyze_fill_stage (cfg : RazorConfig) (ev : Event)
    (hex : (analyze cfg ev).exit = ExitPoint.numTrigger ∨
           (analyze cfg ev).exit = ExitPoint.complete) :
    ∃ hs, ev.hemispheres = some hs ∧
      ((analyze cfg ev).exit = ExitPoint.numTrigger →
        (analyze cfg ev).fills =
          denFillsOf cfg (razorMRof hs) (razorRsqof hs ev.met) (razordPhiRof hs)) ∧
      ((analyze cfg ev).exit = ExitPoint.complete →
        (analyze cfg ev).fills =
          denFillsOf cfg (razorMRof hs) (razorRsqof hs ev.met) (razordPhiRof hs) ++
          numFillsOf cfg (razorMRof hs) (razorRsqof hs ev.met) (razordPhiRof hs)) := by
  rcases analyze_shape cfg ev with ⟨_, hi⟩ | ⟨hs, hh, he, hf⟩ | ⟨hs, hh, he, hf⟩
  · rcases hex with he | he <;> rw [he] at hi <;> simp [gateIdx] at hi
  · exact ⟨hs, hh, fun _ => hf, fun hc => by rw [he] at hc; simp at hc⟩
  · exact ⟨hs, hh, fun hn => by rw [he] at hn; simp at hn, fun _ => hf⟩

/-- **C10**: at the filling stage the MR pair is filled exactly when
`Rsq >= rsqCut_`, the Rsq pair exactly when `MR >= mrCut_`, and the dPhiR
and MRVsRsq pairs always; the numerator fills are governed by the same
per-histogram conditions as the denominator fills, and `analyze` emits
exactly these lists at its two filling exits. -/
theorem fill_conditions (cfg : RazorConfig) (MRv Rsqv dPhiRv : ℝ) :
    (Fill.denMR MRv ∈ denFillsOf cfg MRv Rsqv dPhiRv ↔ cfg.rsqCut ≤ Rsqv) ∧
    (Fill.denRsq Rsqv ∈ denFillsOf cfg MRv Rsqv dPhiRv ↔ cfg.mrCut ≤ MRv) ∧
    Fill.dendPhiR dPhiRv ∈ denFillsOf cfg MRv Rsqv dPhiRv ∧
    Fill.denMRVsRsq MRv Rsqv ∈ denFillsOf cfg MRv Rsqv dPhiRv ∧
    (Fill.numMR MRv ∈ numFillsOf cfg MRv Rsqv dPhiRv ↔ cfg.rsqCut ≤ Rsqv) ∧
    (Fill.numRsq Rsqv ∈ numFillsOf cfg MRv Rsqv dPhiRv ↔ cfg.mrCut ≤ MRv) ∧
    Fill.numdPhiR dPhiRv ∈ numFillsOf cfg MRv Rsqv dPhiRv ∧
    Fill.numMRVsRsq MRv Rsqv ∈ numFillsOf cfg MRv Rsqv dPhiRv ∧
    ∀ ev : Event,
      ((analyze cfg ev).exit = ExitPoint.numTrigger ∨
       (analyze cfg ev).exit = ExitPoint.complete) →
      ∃ hs, ev.hemispheres = some hs ∧
        ((analyze cfg ev).exit = ExitPoint.numTrigger →
          (analyze cfg ev).fills =
            denFillsOf cfg (razorMRof hs) (razorRsqof hs ev.met) (razordPhiRof hs)) ∧
        ((analyze cfg ev).exit = ExitPoint.complete →
          (analyze cfg ev).fills =
            denFillsOf cfg (razorMRof hs) (razorRsqof hs ev.met) (razordPhiRof hs) ++
            numFillsOf cfg (razorMRof hs) (razorRsqof hs ev.met) (razordPhiRof hs)) := by
  refine ⟨?_, ?_, ?_, ?_, ?_, ?_, ?_, ?_, analyze_fill_stage cfg⟩ <;>
    by_cases h1 : cfg.rsqCut ≤ Rsqv <;> by_cases h2 : cfg.mrCut ≤ MRv <;>
      simp [denFillsOf, numFillsOf, h1, h2]

/-- Witness for `fill_conditions`: the numerator-trigger-rejected event. -/
theorem fill_conditions_witness :
    ((analyze cfgOpenNum evReject).exit = ExitPoint.numTrigger ∨
     (analyze cfgOpenNum evReject).exit = ExitPoint.complete) ∧
    ∃ hs, evReject.hemispheres = some hs ∧
      ((analyze cfgOpenNum evReject).exit = ExitPoint.numTrigger →
        (analyze cfgOpenNum evReject).fills =
          denFillsOf cfgOpenNum (razorMRof hs)
            (razorRsqof hs evReject.met) (razordPhiRof hs)) ∧
      ((analyze cfgOpenNum evReject).exit = ExitPoint.complete →
        (analyze cfgOpenNum evReject).fills =
          denFillsOf cfgOpenNum (razorMRof hs)
            (razorRsqof hs evReject.met) (razordPhiRof hs) ++
          numFillsOf cfgOpenNum (razorMRof hs)
            (razorRsqof hs evReject.met) (razordPhiRof hs)) := by
  have hexit : (analyze cfgOpenNum evReject).exit = ExitPoint.numTrigger := by
    rw [analyze_openNum_eval]
  exact ⟨Or.inl hexit,
    (fill_conditions cfgOpenNum 0 0 0).2.2.2.2.2.2.2.2 evReject (Or.inl hexit)⟩

theorem firstFalse_cons_true {p : Prop} (hp : p) (ps : List Prop) :
    firstFalse (p :: ps) = firstFalse ps + 1 := by
  simp [firstFalse, hp]

theorem firstFalse_cons_false {p : Prop} (hp : ¬p) (ps : List Prop) :
    firstFalse (p :: ps) = 0 := by
  simp [firstFalse, hp]

/-- **C1**: the exit taken by `analyze` is exactly the first failing gate of
the spec's fixed gate order (denominator-trigger, MET-cut, jet-count-cut,
hemisphere-validity, razor-cut, denominator-trigger again,
numerator-trigger), each gate a hard early return; and the fill list is
always a block of denominator fills followed by a block of numerator fills,
the numerator block nonempty only when the denominator block is. -/
theorem analyze_gate_order (cfg : RazorConfig) (ev : Event) :
    gateIdx (analyze cfg ev).exit = firstFalse (claimedGates cfg ev) ∧
    ∃ d n, (analyze cfg ev).fills = d ++ n ∧
      (∀ f ∈ d, f.isDen = true) ∧ (∀ f ∈ n, f.isNum = true) ∧
      (n ≠ [] → d ≠ []) := by
  constructor
  · unfold analyze
    by_cases h1 : (cfg.denFlagOn && !ev.denAccept) = true
    · rw [if_pos h1]
      have g1 : ¬¬(cfg.denFlagOn = true ∧ ev.denAccept = false) := by
        cases hb : cfg.denFlagOn <;> cases hc : ev.denAccept <;> simp_all
      unfold claimedGates
      rw [firstFalse_cons_false g1]
      rfl
    rw [if_neg h1]
    have g1 : ¬(cfg.denFlagOn = true ∧ ev.denAccept = false) := by
      cases hb : cfg.denFlagOn <;> cases hc : ev.denAccept <;> simp_all
    by_cases h2 : (!ev.metSelPass) = true
    · rw [if_pos h2]
      have g2 : ¬(ev.metSelPass = true) := by
        cases hm : ev.metSelPass <;> simp_all
      unfold claimedGates
      rw [firstFalse_cons_true g1, firstFalse_cons_false g2]
      rfl
    rw [if_neg h2]
    have g2 : ev.metSelPass = true := by
      cases hm : ev.metSelPass <;> simp_all
    by_cases h3 : ev.jetSel.length < cfg.njets
    · rw [if_pos h3]
      have g3 : ¬(cfg.njets ≤ ev.jetSel.length ∧
          cfg.njets ≤ (ev.jetSel.filter id).length) := fun hc =>
        absurd h3 (not_lt.mpr hc.1)
      unfold claimedGates
      rw [firstFalse_cons_true g1, firstFalse_cons_true g2,
        firstFalse_cons_false g3]
      rfl
    rw [if_neg h3]
    by_cases h4 : (ev.jetSel.filter id).length < cfg.njets
    · rw [if_pos h4]
      have g3 : ¬(cfg.njets ≤ ev.jetSel.length ∧
          cfg.njets ≤ (ev.jetSel.filter id).length) := fun hc =>
        absurd h4 (not_lt.mpr hc.2)
      unfold claimedGates
      rw [firstFalse_cons_true g1, firstFalse_cons_true g2,
        firstFalse_cons_false g3]
      rfl
    rw [if_neg h4]
    have g3 : cfg.njets ≤ ev.jetSel.length ∧
        cfg.njets ≤ (ev.jetSel.filter id).length :=
      ⟨not_lt.mp h3, not_lt.mp h4⟩
    cases hh : ev.hemispheres with
    | none =>
      have g4 : ¬∃ hs, ev.hemispheres = some hs ∧
          (hs.length = 2 ∨ hs.length = 5 ∨ hs.length = 10) := by
        rintro ⟨hs, hcon, _⟩
        rw [hh] at hcon
        exact Option.noConfusion hcon
      unfold claimedGates
      rw [firstFalse_cons_true g1, firstFalse_cons_true g2,
        firstFalse_cons_true g3, firstFalse_cons_false g4]
      rfl
    | some hs =>
      dsimp only
      by_cases h5 : hs.length = 0
      · rw [if_pos h5]
        have g4 : ¬∃ hs', ev.hemispheres = some hs' ∧
            (hs'.length = 2 ∨ hs'.length = 5 ∨ hs'.length = 10) := by
          rintro ⟨hs', hcon, hlen⟩
          rw [hh] at hcon
          injection hcon with hcon
          subst hcon
          omega
        unfold claimedGates
        rw [firstFalse_cons_true g1, firstFalse_cons_true g2,
          firstFalse_cons_true g3, firstFalse_cons_false g4]
        rfl
      rw [if_neg h5]
      by_cases h6 : hs.length ≠ 0 ∧ hs.length ≠ 2 ∧ hs.length ≠ 5 ∧ hs.length ≠ 10
      · rw [if_pos h6]
        have g4 : ¬∃ hs', ev.hemispheres = some hs' ∧
            (hs'.length = 2 ∨ hs'.length = 5 ∨ hs'.length = 10) := by
          rintro ⟨hs', hcon, hlen⟩
          rw [hh] at hcon
          injection hcon with hcon
          subst hcon
          rcases hlen with hl | hl | hl
          · exact h6.2.1 hl
          · exact h6.2.2.1 hl
          · exact h6.2.2.2 hl
        unfold claimedGates
        rw [firstFalse_cons_true g1, firstFalse_cons_true g2,
          firstFalse_cons_true g3, firstFalse_cons_false g4]
        rfl
      rw [if_neg h6]
      have hsize : hs.length = 2 ∨ hs.length = 5 ∨ hs.length = 10 := by
        by_contra hc
        push_neg at hc
        exact h6 ⟨h5, hc.1, hc.2.1, hc.2.2⟩
      have g4 : ∃ hs', ev.hemispheres = some hs' ∧
          (hs'.length = 2 ∨ hs'.length = 5 ∨ hs'.length = 10) := ⟨hs, hh, hsize⟩
      have hget : ev.hemispheres.getD [] = hs := by
        rw [hh]
        rfl
      unfold razorStage
      by_cases hrz : razorRsqof hs ev.met < cfg.rsqCut ∧ razorMRof hs < cfg.mrCut
      · rw [if_pos hrz]
        have g5 : ¬¬(razorRsqof (ev.hemispheres.getD []) ev.met < cfg.rsqCut ∧
            razorMRof (ev.hemispheres.getD []) < cfg.mrCut) := by
          rw [hget]
          exact not_not_intro hrz
        unfold claimedGates
        rw [firstFalse_cons_true g1, firstFalse_cons_true g2,
          firstFalse_cons_true g3, firstFalse_cons_true g4,
          firstFalse_cons_false g5]
        rfl
      rw [if_neg hrz]
      have g5 : ¬(razorRsqof (ev.hemispheres.getD []) ev.met < cfg.rsqCut ∧
          razorMRof (ev.hemispheres.getD []) < cfg.mrCut) := by
        rw [hget]
        exact hrz
      rw [if_neg h1]
      by_cases h7 : (cfg.numFlagOn && !ev.numAccept) = true
      · rw [if_pos h7]
        have g7 : ¬¬(cfg.numFlagOn = true ∧ ev.numAccept = false) := by
          cases hb : cfg.numFlagOn <;> cases hc : ev.numAccept <;> simp_all
        unfold claimedGates
        rw [firstFalse_cons_true g1, firstFalse_cons_true g2,
          firstFalse_cons_true g3, firstFalse_cons_true g4,
          firstFalse_cons_true g5, firstFalse_cons_true g1,
          firstFalse_cons_false g7]
        rfl
      · rw [if_neg h7]
        have g7 : ¬(cfg.numFlagOn = true ∧ ev.numAccept = false) := by
          cases hb : cfg.numFlagOn <;> cases hc : ev.numAccept <;> simp_all
        unfold claimedGates
        rw [firstFalse_cons_true g1, firstFalse_cons_true g2,
          firstFalse_cons_true g3, firstFalse_cons_true g4,
          firstFalse_cons_true g5, firstFalse_cons_true g1,
          firstFalse_cons_true g7]
        rfl
  · rcases analyze_shape cfg ev with ⟨hf, _⟩ | ⟨hs, _, _, hf⟩ | ⟨hs, _, _, hf⟩
    · exact ⟨[], [], by rw [hf]; rfl, by simp, by simp, fun h => absurd rfl h⟩
    · refine ⟨denFillsOf cfg (razorMRof hs) (razorRsqof hs ev.met) (razordPhiRof hs),
        [], by rw [hf, List.append_nil], denFillsOf_forall_isDen cfg _ _ _,
        by simp, fun h => absurd rfl h⟩
    · exact ⟨denFillsOf cfg (razorMRof hs) (razorRsqof hs ev.met) (razordPhiRof hs),
        numFillsOf cfg (razorMRof hs) (razorRsqof hs ev.met) (razordPhiRof hs),
        hf, denFillsOf_forall_isDen cfg _ _ _, numFillsOf_forall_isNum cfg _ _ _,
        fun _ => denFillsOf_ne_nil cfg _ _ _⟩
